import Mathlib

/-!
Verification of the `lad` logging-configuration package.

Strings are embedded as lists of characters (`Str`), Go `int` values as
`Int`, and fallible functional options as `Config → Except BuildErr Config`.
Definitions are translated from `src/lad.go`; the caller-path resolver
(`normalizePathPart`, `trimPathFromMarker`, `WithCallerPathFrom` and the
caller encoder) is absent from the provided sources (only its tests appear
there), so those definitions are modelled from the specification, as marked
in their doc comments.
-/

/-- Character-list embedding of Go strings. -/
abbrev Str := List Char

/-- Convert a Lean string literal to the embedding. -/
def str (s : String) : Str := s.toList

/-- Drop trailing characters satisfying a predicate (helper for trimming). -/
def dropTrailing (p : Char → Bool) (s : Str) : Str :=
  (s.reverse.dropWhile p).reverse

/-- Embedding of Go `strings.TrimSpace` (leading and trailing whitespace). -/
def trimSpace (s : Str) : Str :=
  dropTrailing Char.isWhitespace (s.dropWhile Char.isWhitespace)

/-- Embedding of Go `strings.ToLower` (character-wise lowering). -/
def toLowerStr (s : Str) : Str := s.map Char.toLower

/-- Embedding of Go `strings.Index`: index of the first occurrence of
`needle` in `hay`, or `none` when absent. -/
def strIndex : Str → Str → Option Nat
  | [], needle => if needle = [] then some 0 else none
  | c :: t, needle =>
    if needle.isPrefixOf (c :: t) then some 0
    else (strIndex t needle).map (· + 1)

/-- Embedding of Go `strings.Contains`. -/
def containsSub (hay needle : Str) : Bool := (strIndex hay needle).isSome

/-- Index of the last occurrence of a character (Go `strings.LastIndexByte`). -/
def lastIndexOf (c : Char) : Str → Option Nat
  | [] => none
  | a :: t =>
    match lastIndexOf c t with
    | some i => some (i + 1)
    | none => if a = c then some 0 else none

/-- Decimal rendering of a line number. -/
def natToStr (n : Nat) : Str := (Nat.repr n).toList

/-- Modelled from the spec: the library-standard short caller form keeps the
last two path segments (the default rendering used when no marker applies). -/
def trimmedPath (s : Str) : Str :=
  match lastIndexOf '/' s with
  | none => s
  | some i =>
    match lastIndexOf '/' (s.take i) with
    | none => s
    | some j => s.drop (j + 1)

/-- Modelled from the spec: `normalizePathPart` is referenced only by the
tests in `src/caller_path_test.go`; per spec section 4.2 step 1 it converts
backslash separators to forward slashes and trims leading and trailing
slashes. -/
def normalizePathPart (s : Str) : Str :=
  let slashed := s.map fun c => if c = '\\' then '/' else c
  dropTrailing (fun c => c = '/') (slashed.dropWhile fun c => c = '/')

/-- Modelled from the spec: `trimPathFromMarker` is referenced only by the
tests in `src/caller_path_test.go`; per spec section 4.2 steps 2 to 5 it
resolves a normalized path against a normalized marker, returning the
marker-relative path together with a success flag (equality case, then the
interior pivot case, then the marker-first-segment case, else failure). -/
def trimPathFromMarker (path marker : Str) : Str × Bool :=
  if path = marker then (path, true)
  else
    match strIndex path ('/' :: (marker ++ ['/'])) with
    | some i => (path.drop (i + 1), true)
    | none =>
      if (marker ++ ['/']).isPrefixOf path then (path, true)
      else ([], false)

/-! ## Logger construction model (translated from `src/lad.go`) -/

/-- Embedding of `zapcore.Level` (Debug is -1, Info 0, Warn 1, Error 2). -/
abbrev Level := Int

/-- The `zap.DebugLevel` value. -/
def debugLevel : Level := -1

/-- Destination stream of a console sink (`*os.File` in the source; only the
identity of the stream is observable to this layer). -/
inductive OutStream where
  | stdout
  | stderr
  | handle (fd : Nat)
deriving DecidableEq

/-- The observable parts of a `zapcore.EncoderConfig` set by this package:
the timestamp layout installed through `timeEncoder` and whether the level
encoder is the colored capital variant. -/
structure EncoderCfg where
  timeFormat : Str
  colorLevel : Bool
deriving DecidableEq

/-- An encoder as produced by `zapcore.NewConsoleEncoder` or
`zapcore.NewJSONEncoder` over an encoder configuration. -/
inductive Encoder where
  | console (cfg : EncoderCfg)
  | json (cfg : EncoderCfg)
deriving DecidableEq

/-- A write target: a plain stream (`zapcore.AddSync(out)`) or a lumberjack
rotating file with its rotation thresholds. -/
inductive Syncer where
  | stream (out : OutStream)
  | lumberjack (filename : Str) (maxSize maxBackups maxAge : Int)
      (compress : Bool)
deriving DecidableEq

/-- Embedding of `zapcore.Core` as built by `zapcore.NewCore`:
encoder, write syncer and minimum severity threshold. -/
structure Core where
  enc : Encoder
  ws : Syncer
  level : Level
deriving DecidableEq

/-- The zap options this package appends (`zap.AddCaller`,
`zap.AddCallerSkip`, `zap.AddStacktrace`, plus opaque passthrough options
from `WithZapOptions`). -/
inductive ZapOpt where
  | addCaller
  | addCallerSkip (n : Int)
  | addStacktrace (lvl : Level)
  | raw (tag : Nat)
deriving DecidableEq

/-- Build-time errors returned by options. The first three correspond to
the concrete errors in the source; `emptyCallerMarker` is the invalid
argument error of the spec-modelled marker option; `other` stands for
errors of arbitrary passthrough options. -/
inductive BuildErr where
  | filenameRequired
  | callerSkipNegative
  | unknownFileEncoding (enc : Str)
  | emptyCallerMarker
  | other (msg : Str)
deriving DecidableEq

/-- The mutable build configuration (`type config struct` in the source,
extended with the caller-path marker slot that the spec-modelled
`WithCallerPathFrom` installs; the spec mandates that sinks observe the
final cross-cutting caller settings, so the marker lives in the
configuration rather than in each core's encoder). -/
structure Config where
  cores : List Core
  zapOpts : List ZapOpt
  callerMarker : Option Str
deriving DecidableEq

/-- The empty configuration `New` starts from. -/
def initConfig : Config := ⟨[], [], none⟩

/-- A functional option (`type Option func(*config) error`). -/
abbrev Opt := Config → Except BuildErr Config

/-- `DefaultTimeFormat` from the source. -/
def defaultTimeFormat : Str := str "2006-01-02 15:04:05.000"

/-- `orDefault` from the source. -/
def orDefault (v d : Str) : Str := if trimSpace v = [] then d else v

/-- `ConsoleConfig` from the source. -/
structure ConsoleConfig where
  level : Level
  colored : Bool
  timeFormat : Str
  output : Option OutStream
deriving DecidableEq

/-- `FileConfig` from the source (`Encoding` is a string type whose two
recognized values are `jsonEncoding` and `consoleEncoding`). -/
structure FileConfig where
  level : Level
  filename : Str
  maxSizeMB : Int
  maxBackups : Int
  maxAgeDays : Int
  compress : Bool
  encoding : Str
  timeFormat : Str
deriving DecidableEq

/-- `JSONEncoding`. -/
def jsonEncoding : Str := str "json"

/-- `ConsoleEncoding`. -/
def consoleEncoding : Str := str "console"

/-- `WithZapOptions` from the source. -/
def withZapOptions (opts : List ZapOpt) : Opt := fun c =>
  .ok { c with zapOpts := c.zapOpts ++ opts }

/-- `WithCaller` from the source. -/
def withCaller : Opt := fun c =>
  .ok { c with zapOpts := c.zapOpts ++ [ZapOpt.addCaller] }

/-- `WithCallerSkip` from the source. -/
def withCallerSkip (skip : Int) : Opt := fun c =>
  if skip < 0 then .error BuildErr.callerSkipNegative
  else .ok { c with zapOpts := c.zapOpts ++ [ZapOpt.addCallerSkip skip] }

/-- `WithStacktrace` from the source. -/
def withStacktrace (level : Level) : Opt := fun c =>
  .ok { c with zapOpts := c.zapOpts ++ [ZapOpt.addStacktrace level] }

/-- Modelled from the spec: `WithCallerPathFrom` is absent from the provided
sources (only its tests and callers appear); per spec section 4.1 it trims
the marker, fails with an invalid-argument error when the result is empty,
and otherwise installs the caller-path rewrite strategy (last one wins). -/
def withCallerPathFrom (marker : Str) : Opt := fun c =>
  let m := trimSpace marker
  if m = [] then .error BuildErr.emptyCallerMarker
  else .ok { c with callerMarker := some m }

/-- `WithConsole` from the source: defaults the output stream to stdout and
the timestamp layout to the default, chooses the colored or plain capital
level encoder, and appends a console core. -/
def withConsole (cc : ConsoleConfig) : Opt := fun c =>
  let out := cc.output.getD OutStream.stdout
  let encCfg : EncoderCfg := ⟨orDefault cc.timeFormat defaultTimeFormat, cc.colored⟩
  .ok { c with cores :=
          c.cores ++ [⟨Encoder.console encCfg, Syncer.stream out, cc.level⟩] }

/-- `WithFile` from the source: requires a non-blank filename, substitutes
100 for a non-positive maximum size, defaults the encoding to JSON, and
appends a lumberjack-backed core with the selected encoder (unknown
encodings are rejected). -/
def withFile (fc : FileConfig) : Opt := fun c =>
  if trimSpace fc.filename = [] then .error BuildErr.filenameRequired
  else
    let maxSize := if fc.maxSizeMB ≤ 0 then 100 else fc.maxSizeMB
    let encoding := if fc.encoding = [] then jsonEncoding else fc.encoding
    let hook := Syncer.lumberjack fc.filename maxSize fc.maxBackups
      fc.maxAgeDays fc.compress
    let encCfg : EncoderCfg := ⟨orDefault fc.timeFormat defaultTimeFormat, false⟩
    if encoding = jsonEncoding then
      .ok { c with cores := c.cores ++ [⟨Encoder.json encCfg, hook, fc.level⟩] }
    else if encoding = consoleEncoding then
      .ok { c with cores := c.cores ++ [⟨Encoder.console encCfg, hook, fc.level⟩] }
    else .error (BuildErr.unknownFileEncoding encoding)

/-- Equality of option results is decidable (used to evaluate the model on
concrete inputs). -/
instance instDecEqExcept {ε α : Type} [DecidableEq ε] [DecidableEq α] :
    DecidableEq (Except ε α) := fun a b =>
  match a, b with
  | .error e₁, .error e₂ =>
    if h : e₁ = e₂ then .isTrue (by rw [h])
    else .isFalse (fun hh => by cases hh; exact h rfl)
  | .ok a₁, .ok a₂ =>
    if h : a₁ = a₂ then .isTrue (by rw [h])
    else .isFalse (fun hh => by cases hh; exact h rfl)
  | .error _, .ok _ => .isFalse (fun hh => by cases hh)
  | .ok _, .error _ => .isFalse (fun hh => by cases hh)

/-- The option loop of `New`: apply each option in order, stopping at the
first error. -/
def applyOpts : Config → List Opt → Except BuildErr Config
  | c, [] => .ok c
  | c, o :: rest =>
    match o c with
    | .error e => .error e
    | .ok c' => applyOpts c' rest

/-- The built logger: the teed cores plus the cross-cutting zap options and
the caller-path marker (the observable state `zap.New` is given). -/
structure Logger where
  cores : List Core
  zapOpts : List ZapOpt
  callerMarker : Option Str
deriving DecidableEq

/-- The console configuration `New` injects when no core was registered. -/
def defaultConsoleCfg : ConsoleConfig :=
  ⟨debugLevel, true, defaultTimeFormat, some OutStream.stdout⟩

/-- `New` from the source: apply all options in order (fail fast), inject
the default colored debug console core when none was registered (ignoring
that option's never-occurring error, as the source discards it), and wrap
the result. -/
def New (opts : List Opt) : Except BuildErr Logger :=
  match applyOpts initConfig opts with
  | .error e => .error e
  | .ok cfg =>
    let cfg2 :=
      if cfg.cores.isEmpty then
        match withConsole defaultConsoleCfg cfg with
        | .ok c => c
        | .error _ => cfg
      else cfg
    .ok ⟨cfg2.cores, cfg2.zapOpts, cfg2.callerMarker⟩

/-! ## Observable log emission -/

/-- Modelled from the spec: the caller string a record carries. With no
marker the default short form `lastTwoSegments:line` is used; with a marker
the resolver output is used on success and the same short form on failure
(the silent degrade-gracefully policy: a string is always produced, never
an error). -/
def renderCaller (marker : Option Str) (file : Str) (line : Nat) : Str :=
  match marker with
  | none => trimmedPath file ++ ':' :: natToStr line
  | some m =>
    match trimPathFromMarker (normalizePathPart file) (normalizePathPart m) with
    | (rel, true) => rel ++ ':' :: natToStr line
    | (_, false) => trimmedPath file ++ ':' :: natToStr line

/-- The caller annotation of an emitted record: present exactly when
`zap.AddCaller` was registered. -/
def Logger.emittedCaller (L : Logger) (file : Str) (line : Nat) : Option Str :=
  if ZapOpt.addCaller ∈ L.zapOpts then
    some (renderCaller L.callerMarker file line)
  else none

/-- A log record as observed by a core. -/
structure Record where
  level : Level
  msg : Str
  caller : Option Str
deriving DecidableEq

/-- Modelled from the spec: fan-out emission over the tee of cores
(`zapcore.NewTee`): a record at a given level is handed to each core whose
own threshold is at or below that level, paired with the core that encodes
and writes it. -/
def Logger.emit (L : Logger) (lvl : Level) (msg : Str) (file : Str)
    (line : Nat) : List (Core × Record) :=
  L.cores.filterMap fun core =>
    if core.level ≤ lvl then
      some (core, ⟨lvl, msg, L.emittedCaller file line⟩)
    else none

/-! ## Sync model (translated from `src/lad.go`) -/

/-- The observable attributes of a flush error: whether `errors.Is` matches
each of the three syscall errors checked by the source, and the error
message. -/
structure SyncErr where
  isEINVAL : Bool
  isENOTTY : Bool
  isEBADF : Bool
  msg : Str
deriving DecidableEq

/-- `isIgnorableSyncErr` from the source, parameterized by `runtime.GOOS`. -/
def isIgnorableSyncErr (goos : Str) (e : SyncErr) : Bool :=
  if goos = str "windows" then true
  else if e.isEINVAL || e.isENOTTY || e.isEBADF then true
  else
    let m := toLowerStr e.msg
    containsSub m (str "invalid argument") ||
      containsSub m (str "inappropriate ioctl")

/-- `Sync` from the source, parameterized by `runtime.GOOS` and by the
outcome of the underlying `l.Sync()` flush (`none` means the flush
succeeded). A `none` logger is a no-op. -/
def Sync (goos : Str) (l : Option Logger) (flush : Option SyncErr) :
    Option SyncErr :=
  match l with
  | none => none
  | some _ =>
    match flush with
    | none => none
    | some err => if isIgnorableSyncErr goos err then none else some err

/-- Classifier: does an option result carry one of the invalid-argument
errors of the spec taxonomy? -/
def resultIsInvalidArgument : Except BuildErr Config → Bool
  | .error BuildErr.filenameRequired => true
  | .error BuildErr.callerSkipNegative => true
  | .error BuildErr.emptyCallerMarker => true
  | _ => false

/-- Classifier: does an option result carry the unsupported-encoding
error? -/
def resultIsUnsupportedEncoding : Except BuildErr Config → Bool
  | .error (BuildErr.unknownFileEncoding _) => true
  | _ => false

/-! ## Helper lemmas -/

/-- A prefix is no longer than the whole. -/
theorem isPrefixOf_length :
    ∀ (l₁ l₂ : Str), l₁.isPrefixOf l₂ = true → l₁.length ≤ l₂.length
  | [], l₂, _ => by simp
  | a :: t, [], h => by simp [List.isPrefixOf] at h
  | a :: t₁, b :: t₂, h => by
    simp only [List.isPrefixOf, Bool.and_eq_true] at h
    simpa using isPrefixOf_length t₁ t₂ h.2

/-- If `needle` matches at position `i` and at no earlier position, then
`strIndex` finds exactly `i`. -/
theorem strIndex_eq_some_of :
    ∀ (hay : Str) (needle : Str) (i : Nat),
      needle.isPrefixOf (hay.drop i) = true →
      (∀ j, j < i → needle.isPrefixOf (hay.drop j) = false) →
      strIndex hay needle = some i
  | [], needle, i, h1, h2 => by
    simp only [List.drop_nil] at h1
    have hne : needle = [] := by
      cases needle with
      | nil => rfl
      | cons a t => simp [List.isPrefixOf] at h1
    subst hne
    cases i with
    | succ => exact absurd (h2 0 (Nat.succ_pos _)) (by simp)
    | zero => simp [strIndex]
  | a :: t, needle, 0, h1, _ => by
    simp only [List.drop_zero] at h1
    simp [strIndex, h1]
  | a :: t, needle, i + 1, h1, h2 => by
    have h0 : needle.isPrefixOf (a :: t) = false := by
      simpa using h2 0 (Nat.succ_pos _)
    have ih := strIndex_eq_some_of t needle i
      (by simpa [List.drop_succ_cons] using h1)
      (fun j hj => by simpa [List.drop_succ_cons] using h2 (j + 1) (by omega))
    simp [strIndex, h0, ih]

/-- If a nonempty `needle` matches at no position up to the length of `hay`,
then `strIndex` reports no occurrence. -/
theorem strIndex_eq_none_of :
    ∀ (hay : Str) (needle : Str), needle ≠ [] →
      (∀ j, j ≤ hay.length → needle.isPrefixOf (hay.drop j) = false) →
      strIndex hay needle = none
  | [], needle, hne, _ => by simp [strIndex, hne]
  | a :: t, needle, hne, h => by
    have h0 : needle.isPrefixOf (a :: t) = false := by
      simpa using h 0 (Nat.zero_le _)
    have ih := strIndex_eq_none_of t needle hne
      (fun j hj => by
        simpa [List.drop_succ_cons] using h (j + 1) (by simp; omega))
    simp [strIndex, h0, ih]

/-- Applying a concatenation of option lists is applying the first list and
then, from its resulting configuration, the second (strict left-to-right
order). -/
theorem applyOpts_append :
    ∀ (c : Config) (l₁ l₂ : List Opt),
      applyOpts c (l₁ ++ l₂) =
        match applyOpts c l₁ with
        | .ok c' => applyOpts c' l₂
        | .error e => .error e
  | c, [], l₂ => by simp [applyOpts]
  | c, o :: rest, l₂ => by
    simp only [List.cons_append, applyOpts]
    cases o c with
    | error e => simp
    | ok c' => simpa using applyOpts_append c' rest l₂

/-- Case analysis of the resolver on already-normalized inputs. -/
theorem trimPathFromMarker_cases (NM NP : Str) :
    (NP = NM → trimPathFromMarker NP NM = (NP, true)) ∧
    (∀ i : Nat,
      ('/' :: (NM ++ ['/'])).isPrefixOf (NP.drop i) = true →
      (∀ j : Nat, j < i → ('/' :: (NM ++ ['/'])).isPrefixOf (NP.drop j) = false) →
      trimPathFromMarker NP NM = (NP.drop (i + 1), true)) ∧
    ((NM ++ ['/']).isPrefixOf NP = true →
      (∀ j : Nat, j ≤ NP.length →
        ('/' :: (NM ++ ['/'])).isPrefixOf (NP.drop j) = false) →
      trimPathFromMarker NP NM = (NP, true)) := by
  refine ⟨?_, ?_, ?_⟩
  · intro h
    simp [trimPathFromMarker, h]
  · intro i h1 h2
    have hidx : strIndex NP ('/' :: (NM ++ ['/'])) = some i :=
      strIndex_eq_some_of NP _ i h1 h2
    have hlen : ('/' :: (NM ++ ['/'])).length ≤ (NP.drop i).length :=
      isPrefixOf_length _ _ h1
    have hne : NP ≠ NM := by
      intro h
      subst h
      simp [List.length_drop] at hlen
      omega
    simp [trimPathFromMarker, hne, hidx]
  · intro h1 h2
    have hidx : strIndex NP ('/' :: (NM ++ ['/'])) = none :=
      strIndex_eq_none_of NP _ (by simp) h2
    have hlen : (NM ++ ['/']).length ≤ NP.length := isPrefixOf_length _ _ h1
    have hne : NP ≠ NM := by
      intro h
      subst h
      simp at hlen
    simp [trimPathFromMarker, hne, hidx, h1]

/-! ## Claim theorems -/

/-- C1 (amended): after normalizing marker and path, resolution succeeds
with the path itself on exact equality; with the suffix one character past
the first interior pivot occurrence when the pivot occurs; and with the path
unchanged when the path starts with the marker segment and no interior pivot
occurs (the interior case takes precedence over the first-segment case). -/
theorem caller_path_resolution_cases (marker path : Str) :
    (normalizePathPart path = normalizePathPart marker →
      trimPathFromMarker (normalizePathPart path) (normalizePathPart marker) =
        (normalizePathPart path, true)) ∧
    (∀ i : Nat,
      ('/' :: (normalizePathPart marker ++ ['/'])).isPrefixOf
        ((normalizePathPart path).drop i) = true →
      (∀ j : Nat, j < i →
        ('/' :: (normalizePathPart marker ++ ['/'])).isPrefixOf
          ((normalizePathPart path).drop j) = false) →
      trimPathFromMarker (normalizePathPart path) (normalizePathPart marker) =
        ((normalizePathPart path).drop (i + 1), true)) ∧
    ((normalizePathPart marker ++ ['/']).isPrefixOf (normalizePathPart path) = true →
      (∀ j : Nat, j ≤ (normalizePathPart path).length →
        ('/' :: (normalizePathPart marker ++ ['/'])).isPrefixOf
          ((normalizePathPart path).drop j) = false) →
      trimPathFromMarker (normalizePathPart path) (normalizePathPart marker) =
        (normalizePathPart path, true)) :=
  trimPathFromMarker_cases (normalizePathPart marker) (normalizePathPart path)

/-- C1 witness: the interior case on the test vector of
`TestTrimPathFromMarker`, with the pivot found at index 13. -/
theorem caller_path_resolution_cases_witness :
    trimPathFromMarker
      (normalizePathPart (str "/Users/me/work/omivix/application/service.go"))
      (normalizePathPart (str "omivix")) =
    (str "omivix/application/service.go", true) := by
  have h :=
    (caller_path_resolution_cases (str "omivix")
      (str "/Users/me/work/omivix/application/service.go")).2.1 13
      (by decide) (by decide)
  exact h.trans (by decide)

/-- C1 counterexample: when the normalized path both starts with the marker
segment and contains an interior pivot, the claim's first-segment clause
(path returned unchanged) fails: the interior case wins and the suffix at
the second marker occurrence is returned instead. -/
theorem caller_path_resolution_cases_counterexample :
    ((normalizePathPart (str "m") ++ ['/']).isPrefixOf
      (normalizePathPart (str "m/a/m/b")) = true) ∧
    trimPathFromMarker (normalizePathPart (str "m/a/m/b"))
      (normalizePathPart (str "m")) = (str "m/b", true) ∧
    (str "m/b", true) ≠ (normalizePathPart (str "m/a/m/b"), true) := by
  decide

/-- C3: when the marker occurs in the path as no segment at all (not equal,
no interior pivot, not the first segment, all after normalization),
resolution fails with the empty string and false flag, the rendered caller
falls back to the default short form (last two segments plus line), and a
caller-enabled logger still emits a caller annotation (a string, never an
error). -/
theorem caller_path_fallback (marker path : Str) (line : Nat)
    (hne : normalizePathPart path ≠ normalizePathPart marker)
    (hno : ∀ j : Nat, j ≤ (normalizePathPart path).length →
      ('/' :: (normalizePathPart marker ++ ['/'])).isPrefixOf
        ((normalizePathPart path).drop j) = false)
    (hpre : (normalizePathPart marker ++ ['/']).isPrefixOf
      (normalizePathPart path) = false) :
    trimPathFromMarker (normalizePathPart path) (normalizePathPart marker) =
      ([], false) ∧
    renderCaller (some marker) path line = renderCaller none path line ∧
    renderCaller none path line = trimmedPath path ++ ':' :: natToStr line ∧
    ∀ cores : List Core,
      (Logger.mk cores [ZapOpt.addCaller] (some marker)).emittedCaller path line =
        some (trimmedPath path ++ ':' :: natToStr line) := by
  have hidx : strIndex (normalizePathPart path)
      ('/' :: (normalizePathPart marker ++ ['/'])) = none :=
    strIndex_eq_none_of _ _ (by simp) hno
  have htrim : trimPathFromMarker (normalizePathPart path)
      (normalizePathPart marker) = ([], false) := by
    simp [trimPathFromMarker, hne, hidx, hpre]
  refine ⟨htrim, ?_, rfl, ?_⟩
  · simp [renderCaller, htrim]
  · intro cores
    simp [Logger.emittedCaller, renderCaller, htrim]

/-- C3 witness: the not-found vector of `TestTrimPathFromMarker` falls back
to the short caller form. -/
theorem caller_path_fallback_witness :
    trimPathFromMarker
      (normalizePathPart (str "/Users/me/work/project/application/service.go"))
      (normalizePathPart (str "omivix")) = ([], false) ∧
    renderCaller (some (str "omivix"))
        (str "/Users/me/work/project/application/service.go") 42 =
      renderCaller none (str "/Users/me/work/project/application/service.go") 42 ∧
    renderCaller none (str "/Users/me/work/project/application/service.go") 42 =
      trimmedPath (str "/Users/me/work/project/application/service.go") ++
        ':' :: natToStr 42 ∧
    (Logger.mk [] [ZapOpt.addCaller] (some (str "omivix"))).emittedCaller
        (str "/Users/me/work/project/application/service.go") 42 =
      some (trimmedPath (str "/Users/me/work/project/application/service.go") ++
        ':' :: natToStr 42) := by
  have h := caller_path_fallback (str "omivix")
    (str "/Users/me/work/project/application/service.go") 42
    (by decide) (by decide) (by decide)
  exact ⟨h.1, h.2.1, h.2.2.1, h.2.2.2 []⟩

/-- On valid input, `withFile` appends one core whose shape does not depend
on the configuration it is applied to. -/
theorem withFile_ok_shape (fc : FileConfig)
    (hf : trimSpace fc.filename ≠ [])
    (he : fc.encoding = [] ∨ fc.encoding = jsonEncoding ∨
      fc.encoding = consoleEncoding) :
    ∃ core : Core, ∀ c : Config,
      withFile fc c = .ok { c with cores := c.cores ++ [core] } := by
  rcases he with h | h | h
  · refine ⟨⟨Encoder.json ⟨orDefault fc.timeFormat defaultTimeFormat, false⟩,
      Syncer.lumberjack fc.filename
        (if fc.maxSizeMB ≤ 0 then 100 else fc.maxSizeMB)
        fc.maxBackups fc.maxAgeDays fc.compress, fc.level⟩, fun c => ?_⟩
    simp [withFile, hf, h]
  · refine ⟨⟨Encoder.json ⟨orDefault fc.timeFormat defaultTimeFormat, false⟩,
      Syncer.lumberjack fc.filename
        (if fc.maxSizeMB ≤ 0 then 100 else fc.maxSizeMB)
        fc.maxBackups fc.maxAgeDays fc.compress, fc.level⟩, fun c => ?_⟩
    have : fc.encoding ≠ [] := by rw [h]; decide
    simp [withFile, hf, h, this]
  · refine ⟨⟨Encoder.console ⟨orDefault fc.timeFormat defaultTimeFormat, false⟩,
      Syncer.lumberjack fc.filename
        (if fc.maxSizeMB ≤ 0 then 100 else fc.maxSizeMB)
        fc.maxBackups fc.maxAgeDays fc.compress, fc.level⟩, fun c => ?_⟩
    have h1 : ¬(consoleEncoding = []) := by decide
    have h2 : ¬(consoleEncoding = jsonEncoding) := by decide
    simp [withFile, hf, h, h1, h2]

/-- C2: with a valid file sink spec and a valid marker, configuring the
caller-path marker before or after the file sink (caller annotation enabled
in any of the tested positions) builds the same logger, and that logger's
emitted records carry the marker-relative caller string. -/
theorem with_caller_path_order_independent (fc : FileConfig) (m : Str)
    (hm : trimSpace m ≠ [])
    (hf : trimSpace fc.filename ≠ [])
    (he : fc.encoding = [] ∨ fc.encoding = jsonEncoding ∨
      fc.encoding = consoleEncoding) :
    New [withFile fc, withCaller, withCallerPathFrom m] =
      New [withCallerPathFrom m, withFile fc, withCaller] ∧
    New [withFile fc, withCallerPathFrom m, withCaller] =
      New [withCallerPathFrom m, withFile fc, withCaller] ∧
    ∃ L : Logger,
      New [withFile fc, withCaller, withCallerPathFrom m] = .ok L ∧
      ∀ file : Str, ∀ line : Nat,
        L.emittedCaller file line =
          some (renderCaller (some (trimSpace m)) file line) := by
  obtain ⟨core, hcore⟩ := withFile_ok_shape fc hf he
  have hNew : ∀ opts : List Opt,
      applyOpts initConfig opts =
        .ok ⟨[core], [ZapOpt.addCaller], some (trimSpace m)⟩ →
      New opts = .ok ⟨[core], [ZapOpt.addCaller], some (trimSpace m)⟩ := by
    intro opts h
    simp [New, h]
  refine ⟨?_, ?_, ⟨[core], [ZapOpt.addCaller], some (trimSpace m)⟩, ?_, ?_⟩
  · rw [hNew _ (by simp [applyOpts, hcore, withCaller, withCallerPathFrom, hm,
        initConfig]),
      hNew _ (by simp [applyOpts, hcore, withCaller, withCallerPathFrom, hm,
        initConfig])]
  · rw [hNew _ (by simp [applyOpts, hcore, withCaller, withCallerPathFrom, hm,
        initConfig]),
      hNew _ (by simp [applyOpts, hcore, withCaller, withCallerPathFrom, hm,
        initConfig])]
  · exact hNew _ (by simp [applyOpts, hcore, withCaller, withCallerPathFrom, hm,
      initConfig])
  · intro file line
    simp [Logger.emittedCaller]

/-- C2 witness: a concrete json file sink and the marker of the test. -/
theorem with_caller_path_order_independent_witness :
    New [withFile ⟨0, str "a.log", 0, 0, 0, false, [], []⟩, withCaller,
        withCallerPathFrom (str "omivix")] =
      New [withCallerPathFrom (str "omivix"),
        withFile ⟨0, str "a.log", 0, 0, 0, false, [], []⟩, withCaller] :=
  (with_caller_path_order_independent ⟨0, str "a.log", 0, 0, 0, false, [], []⟩
    (str "omivix") (by decide) (by decide) (Or.inl rfl)).1

/-- C4: options are applied strictly left to right, and as soon as one
returns an error, `New` returns exactly that error and no logger: whatever
options follow are never applied and no default sink is injected. -/
theorem new_fail_fast :
    (∀ (pre post : List Opt) (o : Opt) (c : Config) (e : BuildErr),
      applyOpts initConfig pre = .ok c → o c = .error e →
      New (pre ++ o :: post) = .error e) ∧
    (∀ (c : Config) (l₁ l₂ : List Opt),
      applyOpts c (l₁ ++ l₂) =
        match applyOpts c l₁ with
        | .ok c' => applyOpts c' l₂
        | .error e => .error e) := by
  refine ⟨?_, applyOpts_append⟩
  intro pre post o c e hpre ho
  have : applyOpts initConfig (pre ++ o :: post) = .error e := by
    rw [applyOpts_append, hpre]
    simp [applyOpts, ho]
  simp [New, this]

/-- C4 witness: a single failing option makes `New` return its error. -/
theorem new_fail_fast_witness :
    New [fun _ : Config => Except.error (BuildErr.other (str "boom"))] =
      .error (BuildErr.other (str "boom")) :=
  new_fail_fast.1 [] []
    (fun _ : Config => Except.error (BuildErr.other (str "boom")))
    initConfig (BuildErr.other (str "boom")) rfl rfl

/-- C5: on a successful build, when the applied options registered no core,
`New` injects after them exactly one console core at debug threshold with
color, the default timestamp format and stdout, while keeping every
cross-cutting setting the options produced; when at least one core was
registered, no core is added. -/
theorem new_default_sink (opts : List Opt) (cfg : Config)
    (h : applyOpts initConfig opts = .ok cfg) :
    (cfg.cores = [] →
      New opts = .ok ⟨[⟨Encoder.console ⟨defaultTimeFormat, true⟩,
        Syncer.stream OutStream.stdout, debugLevel⟩],
        cfg.zapOpts, cfg.callerMarker⟩) ∧
    (cfg.cores ≠ [] →
      New opts = .ok ⟨cfg.cores, cfg.zapOpts, cfg.callerMarker⟩) := by
  have hfmt : orDefault defaultTimeFormat defaultTimeFormat = defaultTimeFormat := by
    decide
  constructor
  · intro hc
    simp [New, h, hc, withConsole, defaultConsoleCfg, hfmt]
  · intro hc
    have : cfg.cores.isEmpty = false := by
      cases hcc : cfg.cores with
      | nil => exact absurd hcc hc
      | cons a t => simp
    simp [New, h, this]

/-- C5 witness: building with no options at all yields exactly the default
colored debug console core. -/
theorem new_default_sink_witness :
    New [] = .ok ⟨[⟨Encoder.console ⟨defaultTimeFormat, true⟩,
      Syncer.stream OutStream.stdout, debugLevel⟩], [], none⟩ :=
  (new_default_sink [] initConfig rfl).1 rfl

/-- C7: a record at level `lvl` is delivered to (encoded and written by) a
registered core `S` exactly when `lvl` is at or above that core's own
threshold; the condition mentions no other core. -/
theorem per_sink_filtering (L : Logger) (S : Core) (lvl : Level)
    (msg file : Str) (line : Nat) (hS : S ∈ L.cores) :
    (∃ r : Record, (S, r) ∈ L.emit lvl msg file line) ↔ S.level ≤ lvl := by
  constructor
  · rintro ⟨r, hr⟩
    simp only [Logger.emit, List.mem_filterMap] at hr
    obtain ⟨c, _, hc⟩ := hr
    by_cases hl : c.level ≤ lvl
    · rw [if_pos hl] at hc
      obtain ⟨rfl, rfl⟩ := Prod.mk.injEq .. ▸ Option.some.inj hc
      exact hl
    · rw [if_neg hl] at hc
      cases hc
  · intro hl
    refine ⟨⟨lvl, msg, L.emittedCaller file line⟩, ?_⟩
    simp only [Logger.emit, List.mem_filterMap]
    exact ⟨S, hS, by rw [if_pos hl]⟩

/-- C7 witness: a two-core logger where the info-threshold file core
receives a warn-level record. -/
theorem per_sink_filtering_witness :
    (∃ r : Record,
      (⟨Encoder.json ⟨defaultTimeFormat, false⟩,
          Syncer.lumberjack (str "a.log") 100 0 0 false, 0⟩, r) ∈
        (Logger.mk
          [⟨Encoder.console ⟨defaultTimeFormat, true⟩,
              Syncer.stream OutStream.stdout, debugLevel⟩,
            ⟨Encoder.json ⟨defaultTimeFormat, false⟩,
              Syncer.lumberjack (str "a.log") 100 0 0 false, 0⟩]
          [] none).emit 1 (str "probe") (str "f.go") 7) ↔
    (0 : Level) ≤ 1 :=
  per_sink_filtering _ _ 1 (str "probe") (str "f.go") 7 (by decide)

/-- C6 (amended): `withFile` fails with an invalid-argument error exactly
when the filename is blank after trimming; given a non-blank filename, it
fails with an unsupported-encoding error exactly when the encoding is a
non-empty value other than the two recognized ones (the filename check runs
first); an empty encoding is the json default; otherwise it succeeds,
substituting 100 for a non-positive maximum size. -/
theorem with_file_validation (fc : FileConfig) (c : Config) :
    (resultIsInvalidArgument (withFile fc c) = true ↔
      trimSpace fc.filename = []) ∧
    (trimSpace fc.filename ≠ [] →
      (resultIsUnsupportedEncoding (withFile fc c) = true ↔
        (fc.encoding ≠ [] ∧ fc.encoding ≠ jsonEncoding ∧
          fc.encoding ≠ consoleEncoding))) ∧
    (trimSpace fc.filename ≠ [] → fc.encoding = [] →
      withFile fc c = .ok { c with cores := c.cores ++
        [⟨Encoder.json ⟨orDefault fc.timeFormat defaultTimeFormat, false⟩,
          Syncer.lumberjack fc.filename
            (if fc.maxSizeMB ≤ 0 then 100 else fc.maxSizeMB)
            fc.maxBackups fc.maxAgeDays fc.compress, fc.level⟩] }) ∧
    (trimSpace fc.filename ≠ [] →
      (fc.encoding = jsonEncoding ∨ fc.encoding = consoleEncoding) →
      ∃ enc : Encoder, withFile fc c = .ok { c with cores := c.cores ++
        [⟨enc, Syncer.lumberjack fc.filename
          (if fc.maxSizeMB ≤ 0 then 100 else fc.maxSizeMB)
          fc.maxBackups fc.maxAgeDays fc.compress, fc.level⟩] }) := by
  refine ⟨?_, ?_, ?_, ?_⟩
  · by_cases hf : trimSpace fc.filename = []
    · simp [withFile, hf, resultIsInvalidArgument]
    · simp only [withFile, if_neg hf]
      by_cases h0 : fc.encoding = []
      · simp [h0, resultIsInvalidArgument, hf]
      · by_cases h1 : fc.encoding = jsonEncoding
        · simp [h0, h1, resultIsInvalidArgument, hf]
        · by_cases h2 : fc.encoding = consoleEncoding
          · have hc1 : ¬(consoleEncoding = []) := by decide
            have hc2 : ¬(consoleEncoding = jsonEncoding) := by decide
            simp [h0, h1, h2, hc1, hc2, resultIsInvalidArgument, hf]
          · simp [h0, h1, h2, resultIsInvalidArgument, hf]
  · intro hf
    simp only [withFile, if_neg hf]
    by_cases h0 : fc.encoding = []
    · have : ¬(jsonEncoding = []) := by decide
      simp [h0, resultIsUnsupportedEncoding]
    · by_cases h1 : fc.encoding = jsonEncoding
      · simp [h0, h1, resultIsUnsupportedEncoding]
      · by_cases h2 : fc.encoding = consoleEncoding
        · have hc1 : ¬(consoleEncoding = []) := by decide
          have hc2 : ¬(consoleEncoding = jsonEncoding) := by decide
          simp [h0, h1, h2, hc1, hc2, resultIsUnsupportedEncoding]
        · simp [h0, h1, h2, resultIsUnsupportedEncoding]
  · intro hf h0
    simp [withFile, hf, h0]
  · intro hf he
    rcases he with h | h
    · exact ⟨Encoder.json ⟨orDefault fc.timeFormat defaultTimeFormat, false⟩,
        by
          have h0 : fc.encoding ≠ [] := by rw [h]; decide
          simp [withFile, hf, h, h0]⟩
    · refine ⟨Encoder.console ⟨orDefault fc.timeFormat defaultTimeFormat, false⟩,
        ?_⟩
      have h1 : ¬(consoleEncoding = []) := by decide
      have h2 : ¬(consoleEncoding = jsonEncoding) := by decide
      simp [withFile, hf, h, h1, h2]

/-- C6 witness: a json file sink with a non-positive maximum size gets the
100 megabyte default. -/
theorem with_file_validation_witness :
    withFile ⟨0, str "a.log", 0, 3, 7, true, str "json", []⟩ initConfig =
      .ok { initConfig with cores :=
        [⟨Encoder.json ⟨defaultTimeFormat, false⟩,
          Syncer.lumberjack (str "a.log") 100 3 7 true, 0⟩] } := by
  have h := (with_file_validation
    ⟨0, str "a.log", 0, 3, 7, true, str "json", []⟩ initConfig).2.2.2
    (by decide) (Or.inl rfl)
  obtain ⟨enc, henc⟩ := h
  rw [henc]
  have : withFile ⟨0, str "a.log", 0, 3, 7, true, str "json", []⟩ initConfig =
      .ok { initConfig with cores := [⟨Encoder.json ⟨defaultTimeFormat, false⟩,
        Syncer.lumberjack (str "a.log") 100 3 7 true, 0⟩] } := by decide
  rw [henc] at this
  exact this

/-- C6 counterexample: with a blank filename and the unrecognized encoding
`xml`, the option fails with the invalid-argument filename error, not with
an unsupported-encoding error, although the encoding is a non-empty
unrecognized value: the claim's unsupported-encoding biconditional fails. -/
theorem with_file_validation_counterexample :
    (str "xml" ≠ [] ∧ str "xml" ≠ jsonEncoding ∧ str "xml" ≠ consoleEncoding) ∧
    withFile ⟨0, str "   ", 0, 0, 0, false, str "xml", []⟩ initConfig =
      .error BuildErr.filenameRequired ∧
    resultIsUnsupportedEncoding
      (withFile ⟨0, str "   ", 0, 0, 0, false, str "xml", []⟩ initConfig) =
      false := by
  decide

/-- C8: `Sync` is a no-op on a nil logger, returns success when the flush
succeeded, swallows every recognized benign flush failure (EINVAL, ENOTTY,
a Windows platform, or a message containing the invalid-argument or
inappropriate-ioctl wording), and returns any other flush error unchanged. -/
theorem sync_error_policy (goos : Str) (l : Logger) (flush : Option SyncErr)
    (e : SyncErr) :
    (Sync goos none flush = none) ∧
    (Sync goos (some l) none = none) ∧
    (e.isEINVAL = true → Sync goos (some l) (some e) = none) ∧
    (e.isENOTTY = true → Sync goos (some l) (some e) = none) ∧
    (Sync (str "windows") (some l) (some e) = none) ∧
    (containsSub (toLowerStr e.msg) (str "invalid argument") = true →
      Sync goos (some l) (some e) = none) ∧
    (containsSub (toLowerStr e.msg) (str "inappropriate ioctl") = true →
      Sync goos (some l) (some e) = none) ∧
    (isIgnorableSyncErr goos e = false →
      Sync goos (some l) (some e) = some e) := by
  refine ⟨rfl, rfl, ?_, ?_, ?_, ?_, ?_, ?_⟩
  · intro h
    simp [Sync, isIgnorableSyncErr, h]
  · intro h
    simp [Sync, isIgnorableSyncErr, h]
  · simp [Sync, isIgnorableSyncErr]
  · intro h
    simp only [Sync, isIgnorableSyncErr, h]
    split
    · rfl
    · simp
  · intro h
    simp only [Sync, isIgnorableSyncErr, h]
    split
    · rfl
    · simp
  · intro h
    simp [Sync, h]

/-- C8 witness: a non-EINVAL error whose message is the common container
wording is swallowed on linux. -/
theorem sync_error_policy_witness :
    Sync (str "linux") (some ⟨[], [], none⟩)
      (some ⟨false, false, false, str "sync /dev/stderr: Invalid Argument"⟩) =
      none :=
  (sync_error_policy (str "linux") ⟨[], [], none⟩ none
    ⟨false, false, false, str "sync /dev/stderr: Invalid Argument"⟩).2.2.2.2.2.1
    (by decide)

/-- C9: `withCallerSkip` fails (with the invalid-argument error for a
negative skip) exactly when the skip is negative, and otherwise records the
skip depth in the configuration. -/
theorem with_caller_skip_validation (skip : Int) (c : Config) :
    ((∃ e : BuildErr, withCallerSkip skip c = .error e) ↔ skip < 0) ∧
    (skip < 0 → withCallerSkip skip c = .error BuildErr.callerSkipNegative) ∧
    (0 ≤ skip → withCallerSkip skip c =
      .ok { c with zapOpts := c.zapOpts ++ [ZapOpt.addCallerSkip skip] }) := by
  refine ⟨?_, ?_, ?_⟩
  · constructor
    · rintro ⟨e, he⟩
      by_cases h : skip < 0
      · exact h
      · simp [withCallerSkip, h] at he
    · intro h
      exact ⟨BuildErr.callerSkipNegative, by simp [withCallerSkip, h]⟩
  · intro h
    simp [withCallerSkip, h]
  · intro h
    have : ¬skip < 0 := by omega
    simp [withCallerSkip, this]

/-- C9 witness: skip -1 is rejected, skip 0 is recorded. -/
theorem with_caller_skip_validation_witness :
    withCallerSkip (-1) initConfig = .error BuildErr.callerSkipNegative ∧
    withCallerSkip 0 initConfig =
      .ok { initConfig with zapOpts := [ZapOpt.addCallerSkip 0] } :=
  ⟨(with_caller_skip_validation (-1) initConfig).2.1 (by decide),
    (with_caller_skip_validation 0 initConfig).2.2 (by decide)⟩

/-- C10: the swallowed set is broader than the documented terminal
conditions: on Windows every flush error is ignorable regardless of its
attributes; elsewhere EBADF is ignorable in addition to EINVAL and ENOTTY;
and any error whose lowered message contains the invalid-argument or
inappropriate-ioctl substring is ignorable whatever its origin. -/
theorem ignorable_sync_err_broad (goos : Str) (e : SyncErr) :
    (isIgnorableSyncErr (str "windows") e = true) ∧
    (e.isEBADF = true → isIgnorableSyncErr goos e = true) ∧
    (e.isEINVAL = true → isIgnorableSyncErr goos e = true) ∧
    (e.isENOTTY = true → isIgnorableSyncErr goos e = true) ∧
    (containsSub (toLowerStr e.msg) (str "invalid argument") = true →
      isIgnorableSyncErr goos e = true) ∧
    (containsSub (toLowerStr e.msg) (str "inappropriate ioctl") = true →
      isIgnorableSyncErr goos e = true) := by
  refine ⟨by simp [isIgnorableSyncErr], ?_, ?_, ?_, ?_, ?_⟩
  · intro h
    simp [isIgnorableSyncErr, h]
  · intro h
    simp [isIgnorableSyncErr, h]
  · intro h
    simp [isIgnorableSyncErr, h]
  · intro h
    simp only [isIgnorableSyncErr, h]
    split
    · rfl
    · simp
  · intro h
    simp only [isIgnorableSyncErr, h]
    split
    · rfl
    · simp

/-- C10 witness: an EBADF-only error with an unrelated message is swallowed
on linux, beyond the documented terminal-sync conditions. -/
theorem ignorable_sync_err_broad_witness :
    isIgnorableSyncErr (str "linux")
      ⟨false, false, true, str "write failed: disk unplugged"⟩ = true :=
  (ignorable_sync_err_broad (str "linux")
    ⟨false, false, true, str "write failed: disk unplugged"⟩).2.1 rfl

/-- The three vectors of `TestTrimPathFromMarker` hold of the modelled
resolver: interior marker, marker as first segment, marker absent. -/
theorem trimPathFromMarker_test_vectors :
    trimPathFromMarker
      (normalizePathPart (str "/Users/me/work/omivix/application/service.go"))
      (normalizePathPart (str "omivix")) =
      (str "omivix/application/service.go", true) ∧
    trimPathFromMarker
      (normalizePathPart (str "omivix/application/service.go"))
      (normalizePathPart (str "omivix")) =
      (str "omivix/application/service.go", true) ∧
    trimPathFromMarker
      (normalizePathPart (str "/Users/me/work/project/application/service.go"))
      (normalizePathPart (str "omivix")) =
      (str "", false) := by
  decide
